import Mathlib

/-!
Verification development for the freshness-cache server of the
cp-interactive-map repository.  The definitions below are a shallow
embedding of the server source (`server.js`): machine integers are
modelled as `Nat`/`Int`, JavaScript `undefined`/`null` as `Option`,
and the single-threaded event loop as an explicit state type with a
step function whose steps run between suspension points (awaited
fetches, timers and disk writes).

Modelling conventions, stated once:
* A JavaScript string value that may be `undefined` is `Option String`;
  JS truthiness on it is `jsTruthyStr` (both `undefined` and `""` are
  falsy).  A numeric field that may be `undefined` is `Option Nat`, with
  truthiness `jsTruthyNum` (`undefined` and `0` are falsy).
* `Number(s)` on the digit substrings produced by splitting a time
  string is modelled by `jsNatOfString`: the empty string evaluates to
  `0` (as in JS) and a string of decimal digits to its value; every
  other string is treated as `NaN`, i.e. `none`.  (Exotic JS numeric
  forms such as exponent or fractional literals are out of the model.)
* Epoch-millisecond timestamps are `Nat`; comparisons that can go
  negative in JS (`now - timestamp`) are carried out in `Int`.
* Cache keys are numeric (`Nat`); the string encoding used by the JSON
  snapshot (`Object.fromEntries` / `Number(trainId)`) round-trips on
  numeric keys and is elided.
-/

/-- A scheduled stop of a train, carrying the aliased time-of-day
fields consulted by the TTL computation (`eta || arrival || departure`). -/
structure TrainStop where
  eta : Option String
  arrival : Option String
  departure : Option String
deriving Repr, DecidableEq

/-- The part of the upstream JSON payload consumed by the freshness
policy: a status label and a list of scheduled stops.  All other fields
pass through the cache opaquely and are not modelled. -/
structure Payload where
  status : Option String
  trainStops : List TrainStop
deriving Repr, DecidableEq

/-- JS truthiness of a possibly-undefined string: `undefined` and the
empty string are falsy. -/
def jsTruthyStr (s : Option String) : Bool :=
  match s with
  | none => false
  | some str => str ≠ ""

/-- JS truthiness of a possibly-undefined number: `undefined` and `0`
are falsy. -/
def jsTruthyNum (n : Option Nat) : Bool :=
  match n with
  | none => false
  | some v => v ≠ 0

/-- The JS `a || b` operator on possibly-undefined strings: yields `a`
when `a` is truthy and `b` otherwise. -/
def jsOrStr (a b : Option String) : Option String :=
  if jsTruthyStr a then a else b

/-- The expression `stop.eta || stop.arrival || stop.departure` from the
server source: the first truthy one of the three aliased time fields. -/
def stopEtaField (stop : TrainStop) : Option String :=
  jsOrStr stop.eta (jsOrStr stop.arrival stop.departure)

/-- `String.prototype.split` with a one-character separator, written as
structural recursion on the character list so that it evaluates inside
the kernel (the core `String.splitOn` is well-founded recursion and
does not). -/
def splitChars (sep : Char) : List Char → List Char → List (List Char)
  | [], acc => [acc.reverse]
  | c :: rest, acc =>
    if c = sep then acc.reverse :: splitChars sep rest []
    else splitChars sep rest (c :: acc)

/-- `Number(s)` restricted to the substrings produced by splitting a
time string on char ":": the empty string is `0`, a nonempty string of
decimal digits is its value, anything else is `NaN` (`none`). -/
def jsNatOfChars (cs : List Char) : Option Nat :=
  if cs.isEmpty then some 0
  else if cs.all Char.isDigit then
    some (cs.foldl (fun n c => n * 10 + (c.toNat - 48)) 0)
  else none

/-- `parseTime` from the server source: split on char ":", convert the
first two components with `Number`, return `hours * 60 + minutes`.
A string with no ":" leaves `minutes` undefined, hence `NaN` (`none`);
a non-numeric component likewise poisons the result. -/
def parseTime (timeStr : String) : Option Nat :=
  match splitChars ':' timeStr.data [] with
  | hours :: minutes :: _ =>
    match jsNatOfChars hours, jsNatOfChars minutes with
    | some h, some m => some (h * 60 + m)
    | _, _ => none
  | _ => none

/-- `String.prototype.toUpperCase` on the ASCII status labels used by
the server. -/
def jsToUpperCase (s : String) : String :=
  ⟨s.data.map Char.toUpper⟩

/-- The predicate of the `find` call inside `calculateTTL`:
`eta && parseTime(eta) > currentTimeInMinutes` where
`eta = stop.eta || stop.arrival || stop.departure`.  A falsy `eta`
fails the conjunction, and a `NaN` parse fails the `>` comparison. -/
def isFutureStop (currentTimeInMinutes : Nat) (stop : TrainStop) : Bool :=
  match stopEtaField stop with
  | some eta =>
    if eta = "" then false
    else
      match parseTime eta with
      | some m => decide (currentTimeInMinutes < m)
      | none => false
  | none => false

/-- `calculateTTL` from the server source (`src/unnamed/part_000`,
lines 185-209): a status-keyed switch after upper-casing
(`'UNKNOWN'` when the status field is absent), with a default branch
that searches the stop list for the first future stop.  The current
wall-clock time-of-day (minutes since midnight) is passed explicitly
to keep the function deterministic. -/
def calculateTTL (train : Payload) (currentTimeInMinutes : Nat) : Nat :=
  let status := jsToUpperCase (train.status.getD "UNKNOWN")
  if status = "IN_TRANSIT" then 5 * 1000
  else if status = "AT_STATION" then 30 * 1000
  else if status = "NEAR_NEXT" then 30 * 1000
  else if status = "AT_ORIGIN" then 60 * 1000
  else if train.trainStops.length ≠ 0 then
    match train.trainStops.find? (isFutureStop currentTimeInMinutes) with
    | some nextStop =>
      match parseTime ((stopEtaField nextStop).getD "") with
      | some etaMinutes =>
        let timeUntilNextStop := (etaMinutes - currentTimeInMinutes) * 60 * 1000
        max (timeUntilNextStop - 60 * 1000) (5 * 60 * 1000)
      | none => 5 * 60 * 1000
    | none => 5 * 60 * 1000
  else 5 * 60 * 1000

/-- The future-stop predicate as the specification words it: the first
present (non-empty) one of the aliased time fields, parsed as HH:MM,
is strictly after the current time-of-day.  Spec-side counterpart of
`isFutureStop`. -/
def specFutureStop (currentTimeInMinutes : Nat) (stop : TrainStop) : Bool :=
  match stopEtaField stop with
  | some t =>
    match parseTime t with
    | some m => decide (currentTimeInMinutes < m)
    | none => false
  | none => false

/-- The TTL rule for unrecognized or absent statuses, written from the
specification's wording: search the stop list for the first stop whose
time-of-day is strictly after the current time-of-day; if found, TTL is
max(time until that stop minus a 1-minute margin, a 5-minute floor),
otherwise the fixed 5-minute default.  This is the spec-side definition
compared against `calculateTTL`. -/
def computeTTLUnrecognizedSpec (p : Payload) (currentTimeInMinutes : Nat) : Nat :=
  match p.trainStops.find? (specFutureStop currentTimeInMinutes) with
  | some stop =>
    match parseTime ((stopEtaField stop).getD "") with
    | some m => max ((m - currentTimeInMinutes) * 60000 - 60000) 300000
    | none => 300000
  | none => 300000

lemma parseTime_empty : parseTime "" = none := rfl

lemma isFutureStop_eq_specFutureStop (cur : Nat) (stop : TrainStop) :
    isFutureStop cur stop = specFutureStop cur stop := by
  unfold isFutureStop specFutureStop
  cases h : stopEtaField stop with
  | none => rfl
  | some t =>
    by_cases ht : t = ""
    · subst ht
      simp [parseTime_empty]
    · simp [ht]

/-- C8: freshness monotonicity and the fixed status table.  For any
payload and current time, a status upper-casing to IN_TRANSIT yields a
strictly shorter TTL than AT_STATION, which yields a strictly shorter
TTL than AT_ORIGIN; and any status equal to AT_STATION up to case
yields exactly 30000 ms. -/
theorem calculateTTL_monotone (p : Payload) (cur : Nat) (s₁ s₂ s₃ : String)
    (h₁ : jsToUpperCase s₁ = "IN_TRANSIT")
    (h₂ : jsToUpperCase s₂ = "AT_STATION")
    (h₃ : jsToUpperCase s₃ = "AT_ORIGIN") :
    calculateTTL { p with status := some s₁ } cur <
      calculateTTL { p with status := some s₂ } cur ∧
    calculateTTL { p with status := some s₂ } cur <
      calculateTTL { p with status := some s₃ } cur ∧
    calculateTTL { p with status := some s₂ } cur = 30000 := by
  have e₁ : calculateTTL { p with status := some s₁ } cur = 5000 := by
    simp [calculateTTL, h₁]
  have e₂ : calculateTTL { p with status := some s₂ } cur = 30000 := by
    simp [calculateTTL, h₂]
  have e₃ : calculateTTL { p with status := some s₃ } cur = 60000 := by
    simp [calculateTTL, h₃]
  rw [e₁, e₂, e₃]
  refine ⟨by norm_num, by norm_num, rfl⟩

/-- Witness for `calculateTTL_monotone` at concrete lower-case statuses. -/
theorem calculateTTL_monotone_witness :
    calculateTTL { status := some "in_transit", trainStops := [] } 0 <
      calculateTTL { status := some "at_station", trainStops := [] } 0 ∧
    calculateTTL { status := some "at_station", trainStops := [] } 0 <
      calculateTTL { status := some "at_origin", trainStops := [] } 0 ∧
    calculateTTL { status := some "at_station", trainStops := [] } 0 = 30000 :=
  calculateTTL_monotone { status := none, trainStops := [] } 0
    "in_transit" "at_station" "at_origin" (by decide) (by decide) (by decide)

/-- C9: for an unrecognized or absent status, `calculateTTL` agrees with
the spec-side rule `computeTTLUnrecognizedSpec` (first future stop, one
minute safety margin, five minute floor, five minute default), and the
concrete scenario status UNKNOWN with a stop at 23:50 queried at 23:40
yields exactly 540000 ms. -/
theorem calculateTTL_default_branch (p : Payload) (cur : Nat)
    (h : jsToUpperCase (p.status.getD "UNKNOWN") ∉
      (["IN_TRANSIT", "AT_STATION", "NEAR_NEXT", "AT_ORIGIN"] : List String)) :
    calculateTTL p cur = computeTTLUnrecognizedSpec p cur ∧
    calculateTTL ⟨some "UNKNOWN", [⟨some "23:50", none, none⟩]⟩ (23 * 60 + 40) = 540000 := by
  constructor
  · simp only [List.mem_cons, List.mem_singleton, not_or] at h
    obtain ⟨h1, h2, h3, h4, -⟩ := h
    have hpred : isFutureStop cur = specFutureStop cur := by
      funext stop
      exact isFutureStop_eq_specFutureStop cur stop
    unfold calculateTTL computeTTLUnrecognizedSpec
    simp only [if_neg h1, if_neg h2, if_neg h3, if_neg h4, hpred]
    by_cases hlen : p.trainStops.length ≠ 0
    · rw [if_pos hlen]
      cases p.trainStops.find? (specFutureStop cur) with
      | none => norm_num
      | some stop =>
        cases hpm : parseTime ((stopEtaField stop).getD "") with
        | none => norm_num [hpm]
        | some m => norm_num [hpm, Nat.mul_assoc]
    · rw [if_neg hlen]
      push_neg at hlen
      rw [List.length_eq_zero] at hlen
      rw [hlen]
      norm_num [List.find?]
  · decide

/-- Witness for `calculateTTL_default_branch` at a payload with an
unrecognized status and no stops. -/
theorem calculateTTL_default_branch_witness :
    calculateTTL ⟨some "FOO", []⟩ 0 = computeTTLUnrecognizedSpec ⟨some "FOO", []⟩ 0 ∧
    calculateTTL ⟨some "UNKNOWN", [⟨some "23:50", none, none⟩]⟩ (23 * 60 + 40) = 540000 :=
  calculateTTL_default_branch ⟨some "FOO", []⟩ 0 (by decide)

/-- C10: `calculateTTL` is total and never returns less than 5000 ms;
a stop whose effective time string fails to parse is skipped by the
future-stop search, and a payload with unrecognized status all of whose
stops have unparseable time strings falls through to the 300000 ms
default. -/
theorem calculateTTL_lower_bound :
    (∀ (p : Payload) (cur : Nat), 5000 ≤ calculateTTL p cur) ∧
    (∀ (cur : Nat) (stop : TrainStop),
        (stopEtaField stop).bind parseTime = none → isFutureStop cur stop = false) ∧
    (∀ (p : Payload) (cur : Nat),
        jsToUpperCase (p.status.getD "UNKNOWN") ∉
          (["IN_TRANSIT", "AT_STATION", "NEAR_NEXT", "AT_ORIGIN"] : List String) →
        (∀ stop ∈ p.trainStops, (stopEtaField stop).bind parseTime = none) →
        calculateTTL p cur = 300000) := by
  refine ⟨?_, ?_, ?_⟩
  · intro p cur
    unfold calculateTTL
    by_cases c1 : jsToUpperCase (p.status.getD "UNKNOWN") = "IN_TRANSIT"
    · simp [c1]
    by_cases c2 : jsToUpperCase (p.status.getD "UNKNOWN") = "AT_STATION"
    · simp [c1, c2]
    by_cases c3 : jsToUpperCase (p.status.getD "UNKNOWN") = "NEAR_NEXT"
    · simp [c1, c2, c3]
    by_cases c4 : jsToUpperCase (p.status.getD "UNKNOWN") = "AT_ORIGIN"
    · simp [c1, c2, c3, c4]
    simp only [if_neg c1, if_neg c2, if_neg c3, if_neg c4]
    by_cases hlen : p.trainStops.length ≠ 0
    · rw [if_pos hlen]
      cases p.trainStops.find? (isFutureStop cur) with
      | none => norm_num
      | some stop =>
        cases hpm : parseTime ((stopEtaField stop).getD "") with
        | none => norm_num [hpm]
        | some m => norm_num [hpm]
    · rw [if_neg hlen]
      norm_num
  · intro cur stop hparse
    unfold isFutureStop
    cases h : stopEtaField stop with
    | none => rfl
    | some t =>
      rw [h] at hparse
      simp only [Option.some_bind] at hparse
      by_cases ht : t = "" <;> simp [ht, hparse]
  · intro p cur hst hstops
    simp only [List.mem_cons, List.mem_singleton, not_or] at hst
    obtain ⟨h1, h2, h3, h4, -⟩ := hst
    unfold calculateTTL
    simp only [if_neg h1, if_neg h2, if_neg h3, if_neg h4]
    have hfind : p.trainStops.find? (isFutureStop cur) = none := by
      rw [List.find?_eq_none]
      intro stop hmem
      have hb := hstops stop hmem
      unfold isFutureStop
      cases h : stopEtaField stop with
      | none => simp
      | some t =>
        rw [h] at hb
        simp only [Option.some_bind] at hb
        by_cases ht : t = "" <;> simp [ht, hb]
    by_cases hlen : p.trainStops.length ≠ 0
    · rw [if_pos hlen, hfind]
    · rw [if_neg hlen]

/-- Witness for `calculateTTL_lower_bound`: the hypothesized conjuncts
applied at a stop with an unparseable time string. -/
theorem calculateTTL_lower_bound_witness :
    isFutureStop 5 ⟨some "xx", none, none⟩ = false ∧
    calculateTTL ⟨some "UNKNOWN", [⟨some "xx", none, none⟩]⟩ 5 = 300000 :=
  ⟨calculateTTL_lower_bound.2.1 5 ⟨some "xx", none, none⟩ (by decide),
   calculateTTL_lower_bound.2.2 ⟨some "UNKNOWN", [⟨some "xx", none, none⟩]⟩ 5
     (by decide) (by decide)⟩

/-- `REFRESH_BATCH_SIZE` from the server source. -/
def REFRESH_BATCH_SIZE : Nat := 25

/-- `REFRESH_BATCH_INTERVAL` (milliseconds between batches) from the
server source. -/
def REFRESH_BATCH_INTERVAL : Nat := 500

/-- An in-memory cache entry: `{ data, timestamp, ttl }` as stored by
`trainCache.set`. -/
structure CacheEntry where
  data : Payload
  timestamp : Nat
  ttl : Nat
deriving Repr, DecidableEq

/-- `trainCache.get(k)` on the insertion-ordered association list that
models the JS `Map`. -/
def cacheGet (cache : List (Nat × CacheEntry)) (k : Nat) : Option CacheEntry :=
  (cache.find? (fun kv => kv.1 == k)).map (fun kv => kv.2)

/-- `trainCache.set(k, e)`: overwrite in place when the key is present
(a JS `Map` keeps the original insertion position), append otherwise. -/
def cacheSet (cache : List (Nat × CacheEntry)) (k : Nat) (e : CacheEntry) :
    List (Nat × CacheEntry) :=
  match cache with
  | [] => [(k, e)]
  | (k', e') :: rest =>
    if k' = k then (k, e) :: rest else (k', e') :: cacheSet rest k e

/-- The process-wide mutable state of the server: the cache `Map`, the
refresh queue array and the single-flight flag.  `drainStarts` and
`snapshotSaves` are instrumentation counters with no counterpart in the
source: they record, respectively, each Idle-to-Draining transition
(a `processRefreshQueue` invocation that passes the guard) and each
completed `saveCacheToFile` at the end of a drain, so that single-flight
properties can be stated. -/
structure SysState where
  trainCache : List (Nat × CacheEntry)
  cacheRefreshQueue : List Nat
  isRefreshInProgress : Bool
  drainStarts : Nat
  snapshotSaves : Nat
deriving Repr, DecidableEq

/-- `queueTrainForRefresh(trainId, priority)` from the server source:
skip when the key is already queued, otherwise unshift (priority) or
push (normal), then start the drain if none is running (modelled by
raising the single-flight flag; the drain body itself progresses in
`stepEvent`). -/
def queueTrainForRefresh (st : SysState) (trainId : Nat) (priority : Bool) : SysState :=
  if trainId ∈ st.cacheRefreshQueue then st
  else
    let st' := { st with cacheRefreshQueue :=
      if priority then trainId :: st.cacheRefreshQueue
      else st.cacheRefreshQueue ++ [trainId] }
    if st'.isRefreshInProgress then st'
    else { st' with isRefreshInProgress := true, drainStarts := st'.drainStarts + 1 }

/-- One fetched refresh result applied to the cache, as in the
`Promise.all` body of `processRefreshQueue`: a successful fetch stores
`{ data, timestamp: now, ttl: calculateTTL(data) }`, a failed fetch
leaves the cache untouched. -/
def refreshOne (fetchFn : Nat → Option Payload) (now nowMin : Nat)
    (cache : List (Nat × CacheEntry)) (trainId : Nat) : List (Nat × CacheEntry) :=
  match fetchFn trainId with
  | some data => cacheSet cache trainId ⟨data, now, calculateTTL data nowMin⟩
  | none => cache

/-- A whole batch of concurrent fetches applied to the cache. -/
def applyBatch (fetchFn : Nat → Option Payload) (now nowMin : Nat)
    (batch : List Nat) (cache : List (Nat × CacheEntry)) : List (Nat × CacheEntry) :=
  batch.foldl (refreshOne fetchFn now nowMin) cache

/-- The externally visible events of the single-threaded event loop.
`enq` is a call to `queueTrainForRefresh`; `drainStep` is the refresh
driver resuming at a suspension point: it consumes one batch from the
queue head, or — when the queue has emptied — persists the snapshot and
returns to idle (`isRefreshInProgress := false`). -/
inductive SysEvent where
  | enq (trainId : Nat) (priority : Bool)
  | drainStep
deriving Repr, DecidableEq

/-- Small-step semantics of the server loop: each step is the code the
event loop runs between two suspension points of the source. -/
def stepEvent (fetchFn : Nat → Option Payload) (now nowMin : Nat)
    (st : SysState) (ev : SysEvent) : SysState :=
  match ev with
  | .enq trainId priority => queueTrainForRefresh st trainId priority
  | .drainStep =>
    if st.isRefreshInProgress then
      if st.cacheRefreshQueue.isEmpty then
        { st with isRefreshInProgress := false, snapshotSaves := st.snapshotSaves + 1 }
      else
        let batchSize := min REFRESH_BATCH_SIZE st.cacheRefreshQueue.length
        { st with
            trainCache := applyBatch fetchFn now nowMin
              (st.cacheRefreshQueue.take batchSize) st.trainCache,
            cacheRefreshQueue := st.cacheRefreshQueue.drop batchSize }
    else st

/-- `getTrainData(trainId)` from the server source.  The upstream fetch
performed on the cache-miss path is a suspension; its result is passed
in as `fetchResult` (`none` models every fetch failure).  Returns the
data handed to the caller, the successor state, and whether an upstream
fetch was performed on this call. -/
def getTrainData (st : SysState) (trainId : Nat) (now nowMin : Nat)
    (fetchResult : Option Payload) : Option Payload × SysState × Bool :=
  match cacheGet st.trainCache trainId with
  | some cached =>
    if (now : Int) - (cached.timestamp : Int) < (cached.ttl : Int) then
      (some cached.data, st, false)
    else
      (some cached.data, queueTrainForRefresh st trainId true, false)
  | none =>
    match fetchResult with
    | some data =>
      (some data,
       { st with trainCache :=
          cacheSet st.trainCache trainId ⟨data, now, calculateTTL data nowMin⟩ },
       true)
    | none => (none, st, true)

lemma queueTrainForRefresh_trainCache (st : SysState) (k : Nat) (p : Bool) :
    (queueTrainForRefresh st k p).trainCache = st.trainCache := by
  unfold queueTrainForRefresh
  by_cases h : k ∈ st.cacheRefreshQueue
  · rw [if_pos h]
  · rw [if_neg h]
    by_cases hp : st.isRefreshInProgress <;> simp [hp]

lemma queueTrainForRefresh_queue (st : SysState) (k : Nat) (p : Bool) :
    (queueTrainForRefresh st k p).cacheRefreshQueue =
      if k ∈ st.cacheRefreshQueue then st.cacheRefreshQueue
      else if p then k :: st.cacheRefreshQueue else st.cacheRefreshQueue ++ [k] := by
  unfold queueTrainForRefresh
  by_cases h : k ∈ st.cacheRefreshQueue
  · rw [if_pos h, if_pos h]
  · rw [if_neg h, if_neg h]
    by_cases hp : st.isRefreshInProgress <;> simp [hp]

lemma queueTrainForRefresh_nodup (st : SysState) (k : Nat) (p : Bool)
    (h : st.cacheRefreshQueue.Nodup) :
    (queueTrainForRefresh st k p).cacheRefreshQueue.Nodup := by
  rw [queueTrainForRefresh_queue]
  by_cases hm : k ∈ st.cacheRefreshQueue
  · simpa [hm] using h
  · cases p <;> simp [hm, h, List.nodup_append, List.disjoint_singleton]

lemma stepEvent_queue_nodup (fetchFn : Nat → Option Payload) (now nowMin : Nat)
    (st : SysState) (ev : SysEvent) (h : st.cacheRefreshQueue.Nodup) :
    (stepEvent fetchFn now nowMin st ev).cacheRefreshQueue.Nodup := by
  cases ev with
  | enq k p => exact queueTrainForRefresh_nodup st k p h
  | drainStep =>
    unfold stepEvent
    by_cases hr : st.isRefreshInProgress
    · rw [if_pos hr]
      by_cases he : st.cacheRefreshQueue.isEmpty
      · simpa [he] using h
      · simpa [he] using h.sublist (List.drop_sublist _ _)
    · simpa [hr] using h

/-- C3: the refresh queue never contains a key twice across any sequence
of enqueue and drain events; an enqueue of a present key (with or
without priority) is a complete no-op; a priority enqueue of an absent
key inserts at the head; a normal enqueue appends at the tail. -/
theorem refresh_queue_invariant (st : SysState) (k : Nat) (p : Bool)
    (fetchFn : Nat → Option Payload) (now nowMin : Nat)
    (hnd : st.cacheRefreshQueue.Nodup) :
    (∀ evs : List SysEvent,
      ((evs.foldl (stepEvent fetchFn now nowMin) st).cacheRefreshQueue).Nodup) ∧
    (k ∈ st.cacheRefreshQueue → queueTrainForRefresh st k p = st) ∧
    (k ∉ st.cacheRefreshQueue →
      (queueTrainForRefresh st k true).cacheRefreshQueue = k :: st.cacheRefreshQueue) ∧
    (k ∉ st.cacheRefreshQueue →
      (queueTrainForRefresh st k false).cacheRefreshQueue = st.cacheRefreshQueue ++ [k]) := by
  refine ⟨?_, ?_, ?_, ?_⟩
  · intro evs
    induction evs generalizing st with
    | nil => exact hnd
    | cons ev rest ih =>
      exact ih _ (stepEvent_queue_nodup fetchFn now nowMin st ev hnd)
  · intro hm
    unfold queueTrainForRefresh
    rw [if_pos hm]
  · intro hm
    rw [queueTrainForRefresh_queue]
    simp [hm]
  · intro hm
    rw [queueTrainForRefresh_queue]
    simp [hm]

/-- Witness for `refresh_queue_invariant` on a two-element queue. -/
theorem refresh_queue_invariant_witness :
    (queueTrainForRefresh ⟨[], [3, 4], false, 0, 0⟩ 3 true = ⟨[], [3, 4], false, 0, 0⟩) ∧
    (queueTrainForRefresh ⟨[], [3, 4], false, 0, 0⟩ 5 true).cacheRefreshQueue = [5, 3, 4] ∧
    (queueTrainForRefresh ⟨[], [3, 4], false, 0, 0⟩ 5 false).cacheRefreshQueue = [3, 4, 5] := by
  have h := refresh_queue_invariant ⟨[], [3, 4], false, 0, 0⟩ 3 true
    (fun _ => none) 0 0 (by decide)
  have h5 := refresh_queue_invariant ⟨[], [3, 4], false, 0, 0⟩ 5 true
    (fun _ => none) 0 0 (by decide)
  exact ⟨h.2.1 (by decide), h5.2.2.1 (by decide), h5.2.2.2 (by decide)⟩

lemma getTrainData_expired (st : SysState) (trainId now nowMin : Nat) (e : CacheEntry)
    (fr : Option Payload)
    (hc : cacheGet st.trainCache trainId = some e)
    (hexp : (e.ttl : Int) ≤ (now : Int) - (e.timestamp : Int)) :
    getTrainData st trainId now nowMin fr =
      (some e.data, queueTrainForRefresh st trainId true, false) := by
  unfold getTrainData
  rw [hc]
  simp [not_lt.mpr hexp]

/-- The state transformation of one stale read of a fixed key: the
successor state produced by `getTrainData` with a failing fetch oracle. -/
def staleReadStep (trainId now nowMin : Nat) (s : SysState) : SysState :=
  (getTrainData s trainId now nowMin none).2.1

lemma staleReadStep_iterate_invariant (st : SysState) (trainId now nowMin : Nat)
    (e : CacheEntry)
    (hc : cacheGet st.trainCache trainId = some e)
    (hexp : (e.ttl : Int) ≤ (now : Int) - (e.timestamp : Int))
    (hnd : st.cacheRefreshQueue.Nodup) :
    ∀ n : Nat,
      cacheGet (((staleReadStep trainId now nowMin)^[n] st).trainCache) trainId = some e ∧
      (((staleReadStep trainId now nowMin)^[n] st).cacheRefreshQueue).Nodup ∧
      (n ≠ 0 → trainId ∈ ((staleReadStep trainId now nowMin)^[n] st).cacheRefreshQueue) := by
  intro n
  induction n with
  | zero => exact ⟨hc, hnd, by simp⟩
  | succ m ih =>
    obtain ⟨ihc, ihnd, -⟩ := ih
    rw [Function.iterate_succ_apply']
    have hs : staleReadStep trainId now nowMin ((staleReadStep trainId now nowMin)^[m] st) =
        queueTrainForRefresh ((staleReadStep trainId now nowMin)^[m] st) trainId true := by
      show (getTrainData ((staleReadStep trainId now nowMin)^[m] st) trainId now nowMin none).2.1 = _
      rw [getTrainData_expired _ trainId now nowMin e none ihc hexp]
    rw [hs]
    refine ⟨?_, queueTrainForRefresh_nodup _ _ _ ihnd, ?_⟩
    · rw [queueTrainForRefresh_trainCache]
      exact ihc
    · intro _
      rw [queueTrainForRefresh_queue]
      by_cases hm : trainId ∈ ((staleReadStep trainId now nowMin)^[m] st).cacheRefreshQueue <;>
        simp [hm]

/-- C1: stale-while-revalidate.  With an expired entry cached for a key,
`getTrainData` returns the stale payload with no upstream fetch and
enqueues the key once with priority (at the head when absent); iterating
the call any number of times leaves exactly one occurrence of the key in
the refresh queue. -/
theorem getTrainData_stale_while_revalidate
    (st : SysState) (trainId now nowMin : Nat) (e : CacheEntry)
    (hc : cacheGet st.trainCache trainId = some e)
    (hexp : (e.ttl : Int) ≤ (now : Int) - (e.timestamp : Int))
    (hnd : st.cacheRefreshQueue.Nodup) :
    (getTrainData st trainId now nowMin none).1 = some e.data ∧
    (getTrainData st trainId now nowMin none).2.2 = false ∧
    ((getTrainData st trainId now nowMin none).2.1).cacheRefreshQueue =
      (if trainId ∈ st.cacheRefreshQueue then st.cacheRefreshQueue
       else trainId :: st.cacheRefreshQueue) ∧
    (∀ n : Nat,
      ((((staleReadStep trainId now nowMin)^[n + 1]) st).cacheRefreshQueue).count trainId = 1) := by
  rw [getTrainData_expired st trainId now nowMin e none hc hexp]
  refine ⟨rfl, rfl, ?_, ?_⟩
  · rw [queueTrainForRefresh_queue]
    by_cases hm : trainId ∈ st.cacheRefreshQueue <;> simp [hm]
  · intro n
    obtain ⟨-, hnodup, hmem⟩ :=
      staleReadStep_iterate_invariant st trainId now nowMin e hc hexp hnd (n + 1)
    exact List.count_eq_one_of_mem hnodup (hmem (Nat.succ_ne_zero n))

/-- Witness for `getTrainData_stale_while_revalidate`: an expired entry
for key 7, fetched at time 0 with TTL 10, read at time 100. -/
theorem getTrainData_stale_while_revalidate_witness :
    (getTrainData ⟨[(7, ⟨⟨none, []⟩, 0, 10⟩)], [], false, 0, 0⟩ 7 100 0 none).1 =
      some (⟨none, []⟩ : Payload) ∧
    (getTrainData ⟨[(7, ⟨⟨none, []⟩, 0, 10⟩)], [], false, 0, 0⟩ 7 100 0 none).2.2 = false ∧
    ((getTrainData ⟨[(7, ⟨⟨none, []⟩, 0, 10⟩)], [], false, 0, 0⟩ 7 100 0 none).2.1).cacheRefreshQueue =
      (if 7 ∈ ([] : List Nat) then ([] : List Nat) else [7]) ∧
    (∀ n : Nat,
      ((((staleReadStep 7 100 0)^[n + 1])
          ⟨[(7, ⟨⟨none, []⟩, 0, 10⟩)], [], false, 0, 0⟩).cacheRefreshQueue).count 7 = 1) :=
  getTrainData_stale_while_revalidate ⟨[(7, ⟨⟨none, []⟩, 0, 10⟩)], [], false, 0, 0⟩
    7 100 0 ⟨⟨none, []⟩, 0, 10⟩ (by decide) (by decide) (by decide)

/-- C7: the first-seen-entity error path.  With no cache entry for a
key, `getTrainData` performs the inline fetch: on success it stores the
payload with its computed TTL and returns it; on failure it returns no
data and leaves the state unchanged.  Whenever any prior entry exists,
the caller always receives its data and no inline fetch happens. -/
theorem getTrainData_first_seen_error
    (st : SysState) (trainId now nowMin : Nat)
    (hc : cacheGet st.trainCache trainId = none) :
    (∀ d : Payload, getTrainData st trainId now nowMin (some d) =
      (some d,
       { st with trainCache :=
          cacheSet st.trainCache trainId ⟨d, now, calculateTTL d nowMin⟩ },
       true)) ∧
    getTrainData st trainId now nowMin none = (none, st, true) ∧
    (∀ (st' : SysState) (e : CacheEntry) (fr : Option Payload),
      cacheGet st'.trainCache trainId = some e →
      (getTrainData st' trainId now nowMin fr).1 = some e.data ∧
      (getTrainData st' trainId now nowMin fr).2.2 = false) := by
  refine ⟨?_, ?_, ?_⟩
  · intro d
    unfold getTrainData
    rw [hc]
  · unfold getTrainData
    rw [hc]
  · intro st' e fr hce
    unfold getTrainData
    rw [hce]
    by_cases hv : (now : Int) - (e.timestamp : Int) < (e.ttl : Int) <;> simp [hv]

/-- Witness for `getTrainData_first_seen_error` on an empty cache, key 9. -/
theorem getTrainData_first_seen_error_witness :
    getTrainData ⟨[], [], false, 0, 0⟩ 9 50 0 (some ⟨some "AT_STATION", []⟩) =
      (some ⟨some "AT_STATION", []⟩,
       ⟨[(9, ⟨⟨some "AT_STATION", []⟩, 50, 30000⟩)], [], false, 0, 0⟩, true) ∧
    getTrainData ⟨[], [], false, 0, 0⟩ 9 50 0 none = (none, ⟨[], [], false, 0, 0⟩, true) := by
  have h := getTrainData_first_seen_error ⟨[], [], false, 0, 0⟩ 9 50 0 (by decide)
  refine ⟨?_, h.2.1⟩
  rw [h.1 ⟨some "AT_STATION", []⟩]
  decide

/-- The single-flight bookkeeping invariant: the number of drain runs
ever started exceeds the number of completed (snapshot-persisting) runs
by exactly one while the flag is raised, and equals it while idle — so
runs never overlap and each completed run persisted exactly once. -/
def DrainInv (st : SysState) : Prop :=
  (st.isRefreshInProgress = true → st.drainStarts = st.snapshotSaves + 1) ∧
  (st.isRefreshInProgress = false → st.drainStarts = st.snapshotSaves)

lemma queueTrainForRefresh_drainInv (st : SysState) (k : Nat) (p : Bool)
    (h : DrainInv st) : DrainInv (queueTrainForRefresh st k p) := by
  unfold DrainInv at h ⊢
  unfold queueTrainForRefresh
  by_cases hm : k ∈ st.cacheRefreshQueue
  · rwa [if_pos hm]
  · rw [if_neg hm]
    by_cases hr : st.isRefreshInProgress
    · simpa [hr] using h
    · rw [Bool.not_eq_true] at hr
      simp [hr]
      exact h.2 hr

lemma stepEvent_drainInv (fetchFn : Nat → Option Payload) (now nowMin : Nat)
    (st : SysState) (ev : SysEvent) (h : DrainInv st) :
    DrainInv (stepEvent fetchFn now nowMin st ev) := by
  cases ev with
  | enq k p => exact queueTrainForRefresh_drainInv st k p h
  | drainStep =>
    unfold stepEvent
    by_cases hr : st.isRefreshInProgress
    · rw [if_pos hr]
      by_cases he : st.cacheRefreshQueue.isEmpty
      · rw [if_pos he]
        unfold DrainInv at h ⊢
        simp
        exact h.1 hr
      · rw [if_neg he]
        unfold DrainInv at h ⊢
        simpa using h
    · rw [if_neg hr]
      exact h

/-- C2: single-flight drain.  The bookkeeping invariant is preserved by
every event sequence (so started runs never exceed completed runs by
more than one — no two concurrent drains); an enqueue during an active
drain changes neither the start counter nor the flag, only adding its
key for the running drain to consume; and when the queue has emptied the
drain persists the snapshot exactly once and returns to idle. -/
theorem drain_single_flight (fetchFn : Nat → Option Payload) (now nowMin : Nat)
    (st : SysState) (hInv : DrainInv st) :
    (∀ evs : List SysEvent, DrainInv (evs.foldl (stepEvent fetchFn now nowMin) st)) ∧
    (st.isRefreshInProgress = true → ∀ (k : Nat) (p : Bool),
      (queueTrainForRefresh st k p).drainStarts = st.drainStarts ∧
      (queueTrainForRefresh st k p).isRefreshInProgress = true ∧
      k ∈ (queueTrainForRefresh st k p).cacheRefreshQueue) ∧
    (st.isRefreshInProgress = true → st.cacheRefreshQueue = [] →
      (stepEvent fetchFn now nowMin st SysEvent.drainStep).snapshotSaves =
        st.snapshotSaves + 1 ∧
      (stepEvent fetchFn now nowMin st SysEvent.drainStep).isRefreshInProgress = false) := by
  refine ⟨?_, ?_, ?_⟩
  · intro evs
    induction evs generalizing st with
    | nil => exact hInv
    | cons ev rest ih =>
      exact ih _ (stepEvent_drainInv fetchFn now nowMin st ev hInv)
  · intro hr k p
    unfold queueTrainForRefresh
    by_cases hm : k ∈ st.cacheRefreshQueue
    · rw [if_pos hm]
      exact ⟨rfl, hr, hm⟩
    · rw [if_neg hm]
      simp [hr]
      cases p <;> simp
  · intro hr he
    unfold stepEvent
    rw [if_pos hr, if_pos (by simp [he])]
    exact ⟨rfl, rfl⟩

/-- Witness for `drain_single_flight`: a draining state with one queued
key, stepped through an enqueue and two drain steps. -/
theorem drain_single_flight_witness :
    DrainInv (([SysEvent.enq 2 false, SysEvent.drainStep, SysEvent.drainStep].foldl
      (stepEvent (fun _ => none) 0 0) ⟨[], [1], true, 1, 0⟩)) ∧
    (queueTrainForRefresh ⟨[], [1], true, 1, 0⟩ 2 false).drainStarts = 1 ∧
    (stepEvent (fun _ => none) 0 0 ⟨[], [], true, 1, 0⟩ SysEvent.drainStep).snapshotSaves = 1 := by
  have h := drain_single_flight (fun _ => none) 0 0 ⟨[], [1], true, 1, 0⟩
    (by constructor <;> simp)
  have h2 := drain_single_flight (fun _ => none) 0 0 ⟨[], [], true, 1, 0⟩
    (by constructor <;> simp)
  exact ⟨h.1 [SysEvent.enq 2 false, SysEvent.drainStep, SysEvent.drainStep],
    ((h.2.1 rfl) 2 false).1, (h2.2.2 rfl rfl).1⟩

/-- Observable events of one full drain run: a batch of keys fetched
concurrently, or the fixed pause between batches. -/
inductive DrainEv where
  | batch (keys : List Nat)
  | pause (ms : Nat)
deriving Repr, DecidableEq

/-- The `while` loop of `processRefreshQueue` run to completion without
interleaving: repeatedly splice `min(REFRESH_BATCH_SIZE, length)` keys
off the queue head, apply the batch's fetches to the cache, and pause
`REFRESH_BATCH_INTERVAL` ms whenever keys remain.  Returns the event
trace and the final cache. -/
def drainBatches (fetchFn : Nat → Option Payload) (now nowMin : Nat)
    (queue : List Nat) (cache : List (Nat × CacheEntry)) :
    List DrainEv × List (Nat × CacheEntry) :=
  if queue = [] then ([], cache)
  else
    let batchSize := min REFRESH_BATCH_SIZE queue.length
    let batch := queue.take batchSize
    let remaining := queue.drop batchSize
    let cache' := applyBatch fetchFn now nowMin batch cache
    let rest := drainBatches fetchFn now nowMin remaining cache'
    (DrainEv.batch batch ::
      (if remaining.isEmpty then rest.1 else DrainEv.pause REFRESH_BATCH_INTERVAL :: rest.1),
     rest.2)
termination_by queue.length
decreasing_by
  simp only [List.length_drop]
  rename_i h
  have hq : 0 < queue.length := List.length_pos.mpr h
  have hb : 0 < min REFRESH_BATCH_SIZE queue.length := by
    unfold REFRESH_BATCH_SIZE
    omega
  omega

lemma drainBatches_cons (fetchFn : Nat → Option Payload) (now nowMin : Nat)
    (queue : List Nat) (cache : List (Nat × CacheEntry)) (h : queue ≠ []) :
    drainBatches fetchFn now nowMin queue cache =
      (DrainEv.batch (queue.take (min REFRESH_BATCH_SIZE queue.length)) ::
        (if (queue.drop (min REFRESH_BATCH_SIZE queue.length)).isEmpty then
          (drainBatches fetchFn now nowMin (queue.drop (min REFRESH_BATCH_SIZE queue.length))
            (applyBatch fetchFn now nowMin
              (queue.take (min REFRESH_BATCH_SIZE queue.length)) cache)).1
         else DrainEv.pause REFRESH_BATCH_INTERVAL ::
          (drainBatches fetchFn now nowMin (queue.drop (min REFRESH_BATCH_SIZE queue.length))
            (applyBatch fetchFn now nowMin
              (queue.take (min REFRESH_BATCH_SIZE queue.length)) cache)).1),
       (drainBatches fetchFn now nowMin (queue.drop (min REFRESH_BATCH_SIZE queue.length))
          (applyBatch fetchFn now nowMin
            (queue.take (min REFRESH_BATCH_SIZE queue.length)) cache)).2) := by
  rw [drainBatches]
  rw [if_neg h]

lemma drainBatches_nil (fetchFn : Nat → Option Payload) (now nowMin : Nat)
    (cache : List (Nat × CacheEntry)) :
    drainBatches fetchFn now nowMin [] cache = ([], cache) := by
  rw [drainBatches]
  rw [if_pos rfl]

/-- C4: batch bound.  While draining, each round removes
min(25, queue length) keys from the head and pauses 500 ms whenever
keys remain; a queue of 60 keys is consumed in exactly three batches of
sizes 25, 25 and 10 — the successive head segments of the queue — with
one pause between consecutive batches. -/
theorem drain_batch_bound (fetchFn : Nat → Option Payload) (now nowMin : Nat)
    (q : List Nat) (cache : List (Nat × CacheEntry)) (hq : q.length = 60) :
    (drainBatches fetchFn now nowMin q cache).1 =
      [DrainEv.batch (q.take 25), DrainEv.pause 500,
       DrainEv.batch ((q.drop 25).take 25), DrainEv.pause 500,
       DrainEv.batch (q.drop 50)] ∧
    (q.take 25).length = 25 ∧
    ((q.drop 25).take 25).length = 25 ∧
    (q.drop 50).length = 10 ∧
    q.take 25 ++ ((q.drop 25).take 25 ++ q.drop 50) = q ∧
    (∀ (q' : List Nat) (c' : List (Nat × CacheEntry)), q' ≠ [] →
      ((drainBatches fetchFn now nowMin q' c').1).head? =
        some (DrainEv.batch (q'.take (min 25 q'.length)))) := by
  have l1 : q ≠ [] := by
    intro hnil
    rw [hnil] at hq
    simp at hq
  have m1 : min REFRESH_BATCH_SIZE q.length = 25 := by
    unfold REFRESH_BATCH_SIZE
    omega
  have d1len : (q.drop 25).length = 35 := by
    simp [List.length_drop, hq]
  have l2 : q.drop 25 ≠ [] := by
    intro hnil
    rw [hnil] at d1len
    simp at d1len
  have m2 : min REFRESH_BATCH_SIZE (q.drop 25).length = 25 := by
    unfold REFRESH_BATCH_SIZE
    omega
  have d2 : (q.drop 25).drop 25 = q.drop 50 := by
    rw [List.drop_drop]
  have d2len : (q.drop 50).length = 10 := by
    simp [List.length_drop, hq]
  have l3 : q.drop 50 ≠ [] := by
    intro hnil
    rw [hnil] at d2len
    simp at d2len
  have m3 : min REFRESH_BATCH_SIZE (q.drop 50).length = 10 := by
    unfold REFRESH_BATCH_SIZE
    omega
  have t3 : (q.drop 50).take 10 = q.drop 50 := by
    conv_rhs => rw [← List.take_length (q.drop 50)]
    rw [d2len]
  have d3 : (q.drop 50).drop 10 = [] := by
    rw [← List.length_eq_zero]
    simp [List.length_drop, hq]
  refine ⟨?_, by simp [hq], by simp [List.length_drop, hq], d2len, ?_, ?_⟩
  · rw [drainBatches_cons fetchFn now nowMin q cache l1, m1]
    have hne1 : (q.drop 25).isEmpty = false := by
      simpa [List.isEmpty_iff] using l2
    rw [hne1]
    simp only [Bool.false_eq_true, if_false]
    rw [drainBatches_cons fetchFn now nowMin (q.drop 25) _ l2, m2, d2]
    have hne2 : (q.drop 50).isEmpty = false := by
      simpa [List.isEmpty_iff] using l3
    rw [hne2]
    simp only [Bool.false_eq_true, if_false]
    rw [drainBatches_cons fetchFn now nowMin (q.drop 50) _ l3, m3, t3, d3]
    have he3 : (([] : List Nat)).isEmpty = true := rfl
    rw [he3]
    simp only [if_true]
    rw [drainBatches_nil]
    unfold REFRESH_BATCH_INTERVAL
    rfl
  · rw [← d2, List.take_append_drop, List.take_append_drop]
  · intro q' c' hne
    rw [drainBatches_cons fetchFn now nowMin q' c' hne]
    unfold REFRESH_BATCH_SIZE
    rfl

/-- Witness for `drain_batch_bound` at the queue `[0, …, 59]`. -/
theorem drain_batch_bound_witness :
    (drainBatches (fun _ => none) 0 0 (List.range 60) []).1 =
      [DrainEv.batch ((List.range 60).take 25), DrainEv.pause 500,
       DrainEv.batch (((List.range 60).drop 25).take 25), DrainEv.pause 500,
       DrainEv.batch ((List.range 60).drop 50)] :=
  (drain_batch_bound (fun _ => none) 0 0 (List.range 60) [] (by simp)).1

/-- An entry of the persisted snapshot file: the JSON value
`{ data, timestamp, ttl }`, whose numeric fields may be missing in a
corrupt file. -/
structure SnapshotEntry where
  data : Payload
  timestamp : Option Nat
  ttl : Option Nat
deriving Repr, DecidableEq

/-- `saveCacheToFile`: `Object.fromEntries(trainCache)` serialized —
every in-memory entry is written with both numeric fields present. -/
def saveCacheToFile (cache : List (Nat × CacheEntry)) : List (Nat × SnapshotEntry) :=
  cache.map (fun kv => (kv.1, ⟨kv.2.data, some kv.2.timestamp, some kv.2.ttl⟩))

/-- The body of the `for` loop of `loadCacheFromFile`: keep the entry
when `entry.timestamp && entry.ttl` is truthy, and additionally queue it
for refresh (normal priority) when `now - entry.timestamp >= entry.ttl`. -/
def loadEntry (now : Nat) (st : SysState) (kv : Nat × SnapshotEntry) : SysState :=
  if jsTruthyNum kv.2.timestamp && jsTruthyNum kv.2.ttl then
    let st' := { st with trainCache :=
                  cacheSet st.trainCache kv.1 ⟨kv.2.data, kv.2.timestamp.getD 0, kv.2.ttl.getD 0⟩ }
    if (kv.2.ttl.getD 0 : Int) ≤ (now : Int) - (kv.2.timestamp.getD 0 : Int) then
      queueTrainForRefresh st' kv.1 false
    else st'
  else st

/-- `loadCacheFromFile`: clear the in-memory cache
(`trainCache.clear()`), then fold the snapshot entries through
`loadEntry`. -/
def loadCacheFromFile (snapshot : List (Nat × SnapshotEntry)) (now : Nat)
    (st : SysState) : SysState :=
  snapshot.foldl (loadEntry now) { st with trainCache := [] }

/-- The keys of the snapshot entries that are kept on load and are
already expired relative to `now` — exactly the keys
`loadCacheFromFile` queues for refresh, in snapshot order. -/
def snapshotExpiredKeys (snapshot : List (Nat × SnapshotEntry)) (now : Nat) : List Nat :=
  (snapshot.filter (fun kv =>
    jsTruthyNum kv.2.timestamp && jsTruthyNum kv.2.ttl &&
      decide ((kv.2.ttl.getD 0 : Int) ≤ (now : Int) - (kv.2.timestamp.getD 0 : Int)))).map
    Prod.fst

lemma cacheGet_eq_none_iff (c : List (Nat × CacheEntry)) (k : Nat) :
    cacheGet c k = none ↔ k ∉ c.map Prod.fst := by
  unfold cacheGet
  rw [Option.map_eq_none', List.find?_eq_none]
  constructor
  · intro h hk
    obtain ⟨kv, hkv, hfst⟩ := List.mem_map.mp hk
    have hc := h kv hkv
    simp [hfst] at hc
  · intro h kv hkv
    intro hbeq
    have hfst : kv.1 = k := by simpa using hbeq
    exact h (List.mem_map.mpr ⟨kv, hkv, hfst⟩)

lemma cacheGet_cons (kv : Nat × CacheEntry) (rest : List (Nat × CacheEntry)) (k : Nat) :
    cacheGet (kv :: rest) k = if kv.1 = k then some kv.2 else cacheGet rest k := by
  unfold cacheGet
  rw [List.find?_cons]
  by_cases h : kv.1 = k
  · have hb : (kv.1 == k) = true := by simpa using h
    simp [h, hb]
  · have hb : (kv.1 == k) = false := by simpa using h
    simp [h, hb]

lemma cacheGet_of_mem_nodup (c : List (Nat × CacheEntry)) (k : Nat) (e : CacheEntry)
    (hnd : (c.map Prod.fst).Nodup) (hm : (k, e) ∈ c) :
    cacheGet c k = some e := by
  induction c with
  | nil => cases hm
  | cons kv rest ih =>
    rw [List.map_cons, List.nodup_cons] at hnd
    rcases List.mem_cons.mp hm with heq | hmem
    · rw [← heq, cacheGet_cons]
      simp
    · have hk : kv.1 ≠ k := by
        intro hkk
        exact hnd.1 (by rw [hkk]; exact List.mem_map.mpr ⟨(k, e), hmem, rfl⟩)
      rw [cacheGet_cons, if_neg hk]
      exact ih hnd.2 hmem

lemma cacheSet_of_not_mem (c : List (Nat × CacheEntry)) (k : Nat) (e : CacheEntry)
    (h : k ∉ c.map Prod.fst) :
    cacheSet c k e = c ++ [(k, e)] := by
  induction c with
  | nil => rfl
  | cons kv rest ih =>
    rw [List.map_cons] at h
    unfold cacheSet
    rw [if_neg (by intro hk; exact h (by simp [hk]))]
    rw [ih (by intro hk; exact h (by simp [hk]))]
    rfl

lemma keys_nodup_unique (l : List (Nat × SnapshotEntry)) (k : Nat)
    (a b : SnapshotEntry) (hnd : (l.map Prod.fst).Nodup)
    (ha : (k, a) ∈ l) (hb : (k, b) ∈ l) : a = b := by
  induction l with
  | nil => cases ha
  | cons kv rest ih =>
    rw [List.map_cons, List.nodup_cons] at hnd
    rcases List.mem_cons.mp ha with haeq | hamem <;>
      rcases List.mem_cons.mp hb with hbeq | hbmem
    · simpa using haeq.trans hbeq.symm
    · exfalso
      have hk : kv.1 = k := by rw [← haeq]
      exact hnd.1 (by rw [hk]; exact List.mem_map.mpr ⟨(k, b), hbmem, rfl⟩)
    · exfalso
      have hk : kv.1 = k := by rw [← hbeq]
      exact hnd.1 (by rw [hk]; exact List.mem_map.mpr ⟨(k, a), hamem, rfl⟩)
    · exact ih hnd.2 hamem hbmem

lemma loadEntry_trainCache (now : Nat) (st : SysState) (kv : Nat × SnapshotEntry) :
    (loadEntry now st kv).trainCache =
      if jsTruthyNum kv.2.timestamp && jsTruthyNum kv.2.ttl then
        cacheSet st.trainCache kv.1 ⟨kv.2.data, kv.2.timestamp.getD 0, kv.2.ttl.getD 0⟩
      else st.trainCache := by
  unfold loadEntry
  by_cases ht : jsTruthyNum kv.2.timestamp && jsTruthyNum kv.2.ttl
  · rw [if_pos ht, if_pos ht]
    by_cases he : (kv.2.ttl.getD 0 : Int) ≤ (now : Int) - (kv.2.timestamp.getD 0 : Int)
    · rw [if_pos he, queueTrainForRefresh_trainCache]
    · rw [if_neg he]
  · rw [if_neg ht, if_neg ht]

lemma loadEntry_queue (now : Nat) (st : SysState) (kv : Nat × SnapshotEntry) :
    (loadEntry now st kv).cacheRefreshQueue =
      if jsTruthyNum kv.2.timestamp && jsTruthyNum kv.2.ttl &&
          decide ((kv.2.ttl.getD 0 : Int) ≤ (now : Int) - (kv.2.timestamp.getD 0 : Int)) then
        (if kv.1 ∈ st.cacheRefreshQueue then st.cacheRefreshQueue
         else st.cacheRefreshQueue ++ [kv.1])
      else st.cacheRefreshQueue := by
  unfold loadEntry
  by_cases ht : jsTruthyNum kv.2.timestamp && jsTruthyNum kv.2.ttl
  · rw [if_pos ht]
    by_cases he : (kv.2.ttl.getD 0 : Int) ≤ (now : Int) - (kv.2.timestamp.getD 0 : Int)
    · rw [if_pos he, queueTrainForRefresh_queue]
      simp [ht, he]
    · rw [if_neg he]
      simp [ht, he]
  · rw [if_neg ht]
    simp [ht]

lemma load_foldl_trainCache (now : Nat) :
    ∀ (snapshot : List (Nat × SnapshotEntry)) (st : SysState),
      (∀ kv ∈ snapshot, kv.1 ∉ st.trainCache.map Prod.fst) →
      (snapshot.map Prod.fst).Nodup →
      (snapshot.foldl (loadEntry now) st).trainCache =
        st.trainCache ++
          (snapshot.filter (fun kv => jsTruthyNum kv.2.timestamp && jsTruthyNum kv.2.ttl)).map
            (fun kv => (kv.1, (⟨kv.2.data, kv.2.timestamp.getD 0, kv.2.ttl.getD 0⟩ : CacheEntry))) := by
  intro snapshot
  induction snapshot with
  | nil =>
    intro st _ _
    simp
  | cons kv rest ih =>
    intro st hfresh hnd
    rw [List.map_cons, List.nodup_cons] at hnd
    rw [List.foldl_cons]
    by_cases ht : jsTruthyNum kv.2.timestamp && jsTruthyNum kv.2.ttl
    · have hcache : (loadEntry now st kv).trainCache =
          st.trainCache ++ [(kv.1, (⟨kv.2.data, kv.2.timestamp.getD 0, kv.2.ttl.getD 0⟩ : CacheEntry))] := by
        rw [loadEntry_trainCache, if_pos ht,
          cacheSet_of_not_mem _ _ _ (hfresh kv (List.mem_cons_self kv rest))]
      have hrest := ih (loadEntry now st kv)
        (by
          intro kv' hkv'
          rw [hcache]
          simp only [List.map_append, List.mem_append]
          intro hmem
          rcases hmem with hl | hr
          · exact hfresh kv' (List.mem_cons_of_mem kv hkv') hl
          · simp only [List.map_cons, List.map_nil, List.mem_singleton] at hr
            exact hnd.1 (hr ▸ List.mem_map.mpr ⟨kv', hkv', rfl⟩))
        hnd.2
      rw [hrest, hcache, List.filter_cons, if_pos ht, List.map_cons, List.append_assoc]
      rfl
    · have hcache : loadEntry now st kv = st := by
        unfold loadEntry
        rw [if_neg ht]
      rw [hcache]
      rw [ih st (fun kv' hkv' => hfresh kv' (List.mem_cons_of_mem kv hkv')) hnd.2]
      rw [List.filter_cons, if_neg ht]

lemma load_foldl_queue (now : Nat) :
    ∀ (snapshot : List (Nat × SnapshotEntry)) (st : SysState),
      (∀ kv ∈ snapshot, kv.1 ∉ st.cacheRefreshQueue) →
      (snapshot.map Prod.fst).Nodup →
      (snapshot.foldl (loadEntry now) st).cacheRefreshQueue =
        st.cacheRefreshQueue ++ snapshotExpiredKeys snapshot now := by
  intro snapshot
  induction snapshot with
  | nil =>
    intro st _ _
    simp [snapshotExpiredKeys]
  | cons kv rest ih =>
    intro st hfq hnd
    rw [List.map_cons, List.nodup_cons] at hnd
    rw [List.foldl_cons]
    by_cases hp : (jsTruthyNum kv.2.timestamp && jsTruthyNum kv.2.ttl &&
        decide ((kv.2.ttl.getD 0 : Int) ≤ (now : Int) - (kv.2.timestamp.getD 0 : Int))) = true
    · have hq1 : (loadEntry now st kv).cacheRefreshQueue = st.cacheRefreshQueue ++ [kv.1] := by
        rw [loadEntry_queue, if_pos hp, if_neg (hfq kv (List.mem_cons_self kv rest))]
      have hsek : snapshotExpiredKeys (kv :: rest) now = kv.1 :: snapshotExpiredKeys rest now := by
        unfold snapshotExpiredKeys
        rw [List.filter_cons, if_pos hp, List.map_cons]
      rw [ih (loadEntry now st kv)
        (by
          intro kv' hkv'
          rw [hq1]
          simp only [List.mem_append, List.mem_singleton]
          intro hmem
          rcases hmem with hl | hr
          · exact hfq kv' (List.mem_cons_of_mem kv hkv') hl
          · exact hnd.1 (hr ▸ List.mem_map.mpr ⟨kv', hkv', rfl⟩))
        hnd.2, hq1, hsek, List.append_assoc]
      rfl
    · have hq1 : (loadEntry now st kv).cacheRefreshQueue = st.cacheRefreshQueue := by
        rw [loadEntry_queue, if_neg hp]
      have hsek : snapshotExpiredKeys (kv :: rest) now = snapshotExpiredKeys rest now := by
        unfold snapshotExpiredKeys
        rw [List.filter_cons, if_neg hp]
      rw [ih (loadEntry now st kv)
        (by
          intro kv' hkv'
          rw [hq1]
          exact hfq kv' (List.mem_cons_of_mem kv hkv'))
        hnd.2, hq1, hsek]

/-- C5 counterexample: a cache entry whose `timestamp` is the number 0
has both fields, yet the load-side truthiness check
`entry.timestamp && entry.ttl` discards it, so save followed by load is
not the identity on this one-entry cache. -/
theorem snapshot_roundtrip_counterexample :
    (loadCacheFromFile (saveCacheToFile [(1, ⟨⟨none, []⟩, 0, 5000⟩)]) 100
        ⟨[], [], false, 0, 0⟩).trainCache = [] ∧
    (loadCacheFromFile (saveCacheToFile [(1, ⟨⟨none, []⟩, 0, 5000⟩)]) 100
        ⟨[], [], false, 0, 0⟩).trainCache ≠ [(1, ⟨⟨none, []⟩, 0, 5000⟩)] := by
  constructor
  · rfl
  · decide

/-- C5 (amended): for every cache whose entries all have nonzero
(truthy) `timestamp` and `ttl` — which holds for every entry the server
itself writes — and pairwise distinct keys, saving the snapshot and
loading it back reproduces exactly the cache contents: same keys in the
same order, each with identical data, timestamp and ttl. -/
theorem snapshot_roundtrip_truthy (cache : List (Nat × CacheEntry)) (now : Nat) (st : SysState)
    (htruthy : ∀ kv ∈ cache, kv.2.timestamp ≠ 0 ∧ kv.2.ttl ≠ 0)
    (hkeys : (cache.map Prod.fst).Nodup) :
    (loadCacheFromFile (saveCacheToFile cache) now st).trainCache = cache := by
  have hsavekeys : (saveCacheToFile cache).map Prod.fst = cache.map Prod.fst := by
    unfold saveCacheToFile
    rw [List.map_map]
    rfl
  unfold loadCacheFromFile
  rw [load_foldl_trainCache now (saveCacheToFile cache) { st with trainCache := [] }
    (by intro kv _; simp) (by rw [hsavekeys]; exact hkeys)]
  have hfilter : (saveCacheToFile cache).filter
      (fun kv => jsTruthyNum kv.2.timestamp && jsTruthyNum kv.2.ttl) = saveCacheToFile cache := by
    rw [List.filter_eq_self]
    intro kv hkv
    unfold saveCacheToFile at hkv
    obtain ⟨kv0, hkv0, rfl⟩ := List.mem_map.mp hkv
    have ht := htruthy kv0 hkv0
    simp [jsTruthyNum, ht.1, ht.2]
  rw [hfilter]
  unfold saveCacheToFile
  rw [List.map_map]
  have hid : ∀ l : List (Nat × CacheEntry),
      l.map ((fun kv => (kv.1,
          (⟨kv.2.data, kv.2.timestamp.getD 0, kv.2.ttl.getD 0⟩ : CacheEntry))) ∘
        (fun kv => ((kv.1, (⟨kv.2.data, some kv.2.timestamp, some kv.2.ttl⟩ : SnapshotEntry)) :
          Nat × SnapshotEntry))) = l := by
    intro l
    induction l with
    | nil => rfl
    | cons x xs ihl =>
      rw [List.map_cons, ihl]
      rfl
  rw [hid]
  rfl

/-- Witness for `snapshot_roundtrip_truthy` on a one-entry cache. -/
theorem snapshot_roundtrip_truthy_witness :
    (loadCacheFromFile (saveCacheToFile [(2, ⟨⟨none, []⟩, 5, 1000⟩)]) 9999
        ⟨[], [], false, 0, 0⟩).trainCache = [(2, ⟨⟨none, []⟩, 5, 1000⟩)] :=
  snapshot_roundtrip_truthy [(2, ⟨⟨none, []⟩, 5, 1000⟩)] 9999 ⟨[], [], false, 0, 0⟩
    (by decide) (by decide)

lemma getTrainData_fst_of_cached (st : SysState) (trainId now nowMin : Nat) (e : CacheEntry)
    (fr : Option Payload) (hce : cacheGet st.trainCache trainId = some e) :
    (getTrainData st trainId now nowMin fr).1 = some e.data := by
  unfold getTrainData
  rw [hce]
  by_cases hv : (now : Int) - (e.timestamp : Int) < (e.ttl : Int) <;> simp [hv]

/-- C6 counterexample: a snapshot entry with `timestamp: 0` has both
`fetchedAt` and `ttl`, yet load discards it — the truthiness check
treats a present-but-zero field like a missing one. -/
theorem load_keeps_entry_counterexample :
    (loadCacheFromFile [(1, ⟨⟨none, []⟩, some 0, some 1000⟩)] 50
        ⟨[], [], false, 0, 0⟩).trainCache = [] ∧
    cacheGet (loadCacheFromFile [(1, ⟨⟨none, []⟩, some 0, some 1000⟩)] 50
        ⟨[], [], false, 0, 0⟩).trainCache 1 = none := by
  constructor
  · rfl
  · rfl

/-- C6 (amended): loading a snapshot (with pairwise-distinct keys, from
the startup state whose refresh queue is empty) clears the cache and
keeps exactly the entries with truthy — present and nonzero —
`timestamp` and `ttl`, including expired ones; the refresh queue
afterwards consists of exactly the kept-and-expired keys, in snapshot
order, enqueued at normal priority (appended); entries with a missing
or zero field are discarded as corrupt; and a kept entry's stale data is
returned by `getTrainData` at any later time. -/
theorem load_restart_requeue (snapshot : List (Nat × SnapshotEntry)) (now : Nat) (st : SysState)
    (hkeys : (snapshot.map Prod.fst).Nodup)
    (hq : st.cacheRefreshQueue = []) :
    (∀ kv ∈ snapshot, jsTruthyNum kv.2.timestamp = true → jsTruthyNum kv.2.ttl = true →
      cacheGet (loadCacheFromFile snapshot now st).trainCache kv.1 =
        some ⟨kv.2.data, kv.2.timestamp.getD 0, kv.2.ttl.getD 0⟩) ∧
    (∀ kv ∈ snapshot, (kv.2.timestamp = none ∨ kv.2.ttl = none) →
      cacheGet (loadCacheFromFile snapshot now st).trainCache kv.1 = none) ∧
    (∀ k ∈ (loadCacheFromFile snapshot now st).trainCache.map Prod.fst,
      k ∈ snapshot.map Prod.fst) ∧
    (loadCacheFromFile snapshot now st).cacheRefreshQueue = snapshotExpiredKeys snapshot now ∧
    (∀ kv ∈ snapshot, jsTruthyNum kv.2.timestamp = true → jsTruthyNum kv.2.ttl = true →
      ∀ (now' nowMin : Nat) (fr : Option Payload),
        (getTrainData (loadCacheFromFile snapshot now st) kv.1 now' nowMin fr).1 =
          some kv.2.data) := by
  have hcache : (loadCacheFromFile snapshot now st).trainCache =
      (snapshot.filter (fun kv => jsTruthyNum kv.2.timestamp && jsTruthyNum kv.2.ttl)).map
        (fun kv => (kv.1, (⟨kv.2.data, kv.2.timestamp.getD 0, kv.2.ttl.getD 0⟩ : CacheEntry))) := by
    unfold loadCacheFromFile
    rw [load_foldl_trainCache now snapshot { st with trainCache := [] }
      (by intro kv _; simp) hkeys]
    rfl
  have hfilterkeys : ((snapshot.filter
      (fun kv => jsTruthyNum kv.2.timestamp && jsTruthyNum kv.2.ttl)).map Prod.fst).Sublist
      (snapshot.map Prod.fst) :=
    (List.filter_sublist snapshot).map Prod.fst
  have hresultkeys : (loadCacheFromFile snapshot now st).trainCache.map Prod.fst =
      (snapshot.filter (fun kv => jsTruthyNum kv.2.timestamp && jsTruthyNum kv.2.ttl)).map
        Prod.fst := by
    rw [hcache, List.map_map]
    rfl
  have hnodupres : ((loadCacheFromFile snapshot now st).trainCache.map Prod.fst).Nodup := by
    rw [hresultkeys]
    exact hkeys.sublist hfilterkeys
  have hkept : ∀ kv ∈ snapshot, jsTruthyNum kv.2.timestamp = true → jsTruthyNum kv.2.ttl = true →
      cacheGet (loadCacheFromFile snapshot now st).trainCache kv.1 =
        some ⟨kv.2.data, kv.2.timestamp.getD 0, kv.2.ttl.getD 0⟩ := by
    intro kv hkv ht1 ht2
    refine cacheGet_of_mem_nodup _ _ _ hnodupres ?_
    rw [hcache]
    exact List.mem_map.mpr ⟨kv, List.mem_filter.mpr ⟨hkv, by simp [ht1, ht2]⟩, rfl⟩
  refine ⟨hkept, ?_, ?_, ?_, ?_⟩
  · intro kv hkv hmiss
    rw [cacheGet_eq_none_iff, hresultkeys]
    intro hmem
    obtain ⟨kv', hkv', hfst⟩ := List.mem_map.mp hmem
    have hkv'mem : kv' ∈ snapshot := (List.mem_filter.mp hkv').1
    have hkv'p : (jsTruthyNum kv'.2.timestamp && jsTruthyNum kv'.2.ttl) = true :=
      (List.mem_filter.mp hkv').2
    have hsnd : kv'.2 = kv.2 := by
      refine keys_nodup_unique snapshot kv.1 kv'.2 kv.2 hkeys ?_ ?_
      · rw [← hfst]
        exact hkv'mem
      · exact hkv
    rw [hsnd] at hkv'p
    rcases hmiss with hm | hm <;> simp [jsTruthyNum, hm] at hkv'p
  · intro k hk
    rw [hresultkeys] at hk
    obtain ⟨kv', hkv', hfst⟩ := List.mem_map.mp hk
    exact hfst ▸ List.mem_map.mpr ⟨kv', (List.mem_filter.mp hkv').1, rfl⟩
  · unfold loadCacheFromFile
    rw [load_foldl_queue now snapshot { st with trainCache := [] }
      (by intro kv _; simp [hq]) hkeys]
    simp [hq]
  · intro kv hkv ht1 ht2 nowq nowMin fr
    exact getTrainData_fst_of_cached _ _ _ _ _ fr (hkept kv hkv ht1 ht2)

/-- Witness for `load_restart_requeue`: one expired snapshot entry
(timestamp 10, ttl 5, loaded at time 100) is kept, queued at normal
priority, and its stale data is still served. -/
theorem load_restart_requeue_witness :
    cacheGet (loadCacheFromFile [(1, ⟨⟨none, []⟩, some 10, some 5⟩)] 100
        ⟨[], [], false, 0, 0⟩).trainCache 1 = some ⟨⟨none, []⟩, 10, 5⟩ ∧
    (loadCacheFromFile [(1, ⟨⟨none, []⟩, some 10, some 5⟩)] 100
        ⟨[], [], false, 0, 0⟩).cacheRefreshQueue = [1] ∧
    (getTrainData (loadCacheFromFile [(1, ⟨⟨none, []⟩, some 10, some 5⟩)] 100
        ⟨[], [], false, 0, 0⟩) 1 200 0 none).1 = some ⟨none, []⟩ := by
  have h := load_restart_requeue [(1, ⟨⟨none, []⟩, some 10, some 5⟩)] 100
    ⟨[], [], false, 0, 0⟩ (by decide) rfl
  refine ⟨h.1 (1, ⟨⟨none, []⟩, some 10, some 5⟩) (by decide) rfl rfl, ?_, ?_⟩
  · rw [h.2.2.2.1]
    decide
  · exact h.2.2.2.2 (1, ⟨⟨none, []⟩, some 10, some 5⟩) (by decide) rfl rfl 200 0 none
